import Mathlib

/-!
Shallow embedding of the 3-D point-cloud registration pipeline
(`src/ply/ply.py`, `src/matcher/ransac.py`, `src/matcher/icp.py`,
`src/utils/timer.py`).

The repository's Python code wires together Open3D library routines
(KD-tree search, voxel-grid downsampling, RANSAC registration, ICP).
The wiring (guards, correspondence loops, benchmark recording, the Ply
constructor) is translated directly from the source; the library
routines themselves are not in the repository, so they are modelled
from the specification's descriptions and each such definition carries
a doc comment starting `Modelled from the spec:`.

Coordinates are rational numbers; square roots use `Rat.sqrt`.
-/

namespace Matching3D

/-- A 3-D point with rational coordinates. -/
structure Pt where
  x : ℚ
  y : ℚ
  z : ℚ
deriving DecidableEq, Repr

instance : Inhabited Pt := ⟨⟨0, 0, 0⟩⟩

/-- Squared Euclidean distance between two points. -/
def sqDist (p q : Pt) : ℚ :=
  (p.x - q.x) ^ 2 + (p.y - q.y) ^ 2 + (p.z - q.z) ^ 2

/-- Dot product of two 3-vectors. -/
def dot (a b : Pt) : ℚ := a.x * b.x + a.y * b.y + a.z * b.z

/-- A rigid transform: three rotation rows plus a translation vector,
jointly the top of a 4×4 homogeneous matrix. -/
structure Transform where
  r0 : Pt
  r1 : Pt
  r2 : Pt
  t : Pt
deriving DecidableEq, Repr

/-- The identity transform. -/
def identityTransform : Transform :=
  ⟨⟨1, 0, 0⟩, ⟨0, 1, 0⟩, ⟨0, 0, 1⟩, ⟨0, 0, 0⟩⟩

/-- Apply a transform to a point: rotate then translate. -/
def Transform.apply (tf : Transform) (p : Pt) : Pt :=
  ⟨dot tf.r0 p + tf.t.x, dot tf.r1 p + tf.t.y, dot tf.r2 p + tf.t.z⟩

/-- Column `x` of the rotation part. -/
def Transform.colX (tf : Transform) : Pt := ⟨tf.r0.x, tf.r1.x, tf.r2.x⟩

/-- Column `y` of the rotation part. -/
def Transform.colY (tf : Transform) : Pt := ⟨tf.r0.y, tf.r1.y, tf.r2.y⟩

/-- Column `z` of the rotation part. -/
def Transform.colZ (tf : Transform) : Pt := ⟨tf.r0.z, tf.r1.z, tf.r2.z⟩

/-- Composition `a ∘ b` of rigid transforms: apply `b` first, then `a`. -/
def Transform.compose (a b : Transform) : Transform :=
  ⟨⟨dot a.r0 b.colX, dot a.r0 b.colY, dot a.r0 b.colZ⟩,
   ⟨dot a.r1 b.colX, dot a.r1 b.colY, dot a.r1 b.colZ⟩,
   ⟨dot a.r2 b.colX, dot a.r2 b.colY, dot a.r2 b.colZ⟩,
   a.apply b.t⟩

/-- Error kinds surfaced by the core (spec §7): structural invalid input,
a candidate pool with fewer than 3 correspondences, and feature-based
registration requested without descriptors. -/
inductive CoreError where
  | invalidArgument
  | insufficientCorrespondences
  | featureUnavailable
deriving DecidableEq, Repr

/-- Result of a registration call (`RegistrationResult`): transformation,
fitness, inlier RMSE, correspondence set. -/
structure RegistrationResult where
  transformation : Transform
  fitness : ℚ
  inlier_rmse : ℚ
  correspondence_set : List (Nat × Nat)
deriving DecidableEq, Repr

/-! ### Spatial index (k-nearest queries)

Modelled from the spec §4.1: `k_nearest(query, k)` returns `(index,
squared_distance)` pairs in ascending distance order, ties broken by
ascending point index, failing with `InvalidArgument` if `k ≤ 0` or the
index is empty. The KD-tree is an acceleration structure; the model
computes the same answer by sorting all distances. -/

/-- Pair each element with its index (starting at `i`) and its distance
under `d`. -/
def indexDistsFrom {α : Type} (d : α → ℚ) : Nat → List α → List (Nat × ℚ)
  | _, [] => []
  | i, p :: ps => (i, d p) :: indexDistsFrom d (i + 1) ps

/-- Pair each element of a list with its index and its distance under `d`. -/
def indexDists {α : Type} (d : α → ℚ) (l : List α) : List (Nat × ℚ) :=
  indexDistsFrom d 0 l

/-- List of `(index, squared distance to q)` pairs over a point list. -/
def distList (pts : List Pt) (q : Pt) : List (Nat × ℚ) :=
  indexDists (fun p => sqDist p q) pts

/-- Neighbour ordering: by squared distance, ties by ascending index. -/
def nnLe (a b : Nat × ℚ) : Prop :=
  a.2 < b.2 ∨ (a.2 = b.2 ∧ a.1 ≤ b.1)

instance : DecidableRel nnLe := fun a b => by
  unfold nnLe
  exact inferInstance

instance : IsTotal (Nat × ℚ) nnLe :=
  ⟨fun a b => by
    unfold nnLe
    rcases lt_trichotomy a.2 b.2 with h | h | h
    · exact Or.inl (Or.inl h)
    · rcases Nat.le_total a.1 b.1 with h1 | h1
      · exact Or.inl (Or.inr ⟨h, h1⟩)
      · exact Or.inr (Or.inr ⟨h.symm, h1⟩)
    · exact Or.inr (Or.inl h)⟩

instance : IsTrans (Nat × ℚ) nnLe :=
  ⟨fun a b c hab hbc => by
    unfold nnLe at *
    rcases hab with h1 | ⟨h1, h1'⟩ <;> rcases hbc with h2 | ⟨h2, h2'⟩
    · exact Or.inl (h1.trans h2)
    · exact Or.inl (h2 ▸ h1)
    · exact Or.inl (h1 ▸ h2)
    · exact Or.inr ⟨h1.trans h2, h1'.trans h2'⟩⟩

/-- All `(index, distance)` pairs for a query, sorted by `nnLe`
(ascending distance, ties by ascending index). -/
def sortedDistList (pts : List Pt) (q : Pt) : List (Nat × ℚ) :=
  (distList pts q).insertionSort nnLe

/-- Modelled from the spec: `k_nearest` over the spatial index — the first
`k` entries of the distance-sorted list, `InvalidArgument` when `k = 0`
or the index is empty. -/
def kNearest (pts : List Pt) (q : Pt) (k : Nat) :
    Except CoreError (List (Nat × ℚ)) :=
  if k = 0 ∨ pts = [] then .error .invalidArgument
  else .ok ((sortedDistList pts q).take k)

/-- Nearest neighbour of `q` among `pts`: head of the sorted distance
list (`none` iff `pts` is empty). -/
def nearestNbr (pts : List Pt) (q : Pt) : Option (Nat × ℚ) :=
  (sortedDistList pts q).head?

/-! ### Basic lemmas about the spatial-index model -/

lemma nnLe_refl (a : Nat × ℚ) : nnLe a a := Or.inr ⟨rfl, le_refl _⟩

lemma sqDist_nonneg (p q : Pt) : 0 ≤ sqDist p q := by
  unfold sqDist
  positivity

lemma sqDist_self (p : Pt) : sqDist p p = 0 := by
  unfold sqDist
  ring

lemma sqDist_eq_zero_iff {p q : Pt} : sqDist p q = 0 ↔ p = q := by
  constructor
  · intro h
    unfold sqDist at h
    have hx : p.x = q.x := by nlinarith [sq_nonneg (p.x - q.x), sq_nonneg (p.y - q.y), sq_nonneg (p.z - q.z)]
    have hy : p.y = q.y := by nlinarith [sq_nonneg (p.x - q.x), sq_nonneg (p.y - q.y), sq_nonneg (p.z - q.z)]
    have hz : p.z = q.z := by nlinarith [sq_nonneg (p.x - q.x), sq_nonneg (p.y - q.y), sq_nonneg (p.z - q.z)]
    cases p; cases q
    simp_all
  · rintro rfl
    exact sqDist_self p

lemma length_indexDistsFrom {α : Type} (d : α → ℚ) (i : Nat) (l : List α) :
    (indexDistsFrom d i l).length = l.length := by
  induction l generalizing i with
  | nil => rfl
  | cons p ps ih => simp [indexDistsFrom, ih]

lemma mem_indexDistsFrom_iff {α : Type} [Inhabited α] (d : α → ℚ) (i : Nat)
    (l : List α) (e : Nat × ℚ) :
    e ∈ indexDistsFrom d i l ↔
      ∃ k, k < l.length ∧ e = (i + k, d (l.getD k default)) := by
  induction l generalizing i with
  | nil => simp [indexDistsFrom]
  | cons p ps ih =>
    simp only [indexDistsFrom, List.mem_cons, ih]
    constructor
    · rintro (rfl | ⟨k, hk, rfl⟩)
      · exact ⟨0, by simp, by simp⟩
      · exact ⟨k + 1, by simpa using hk, by simp [Nat.add_assoc, Nat.add_comm 1 k]⟩
    · rintro ⟨k, hk, rfl⟩
      match k with
      | 0 => exact Or.inl (by simp)
      | k + 1 =>
        refine Or.inr ⟨k, by simpa using hk, ?_⟩
        simp [Nat.add_assoc, Nat.add_comm 1 k]

lemma mem_distList_iff (pts : List Pt) (q : Pt) (e : Nat × ℚ) :
    e ∈ distList pts q ↔
      ∃ k, k < pts.length ∧ e = (k, sqDist (pts.getD k default) q) := by
  unfold distList indexDists
  rw [mem_indexDistsFrom_iff]
  simp

lemma length_distList (pts : List Pt) (q : Pt) :
    (distList pts q).length = pts.length :=
  length_indexDistsFrom _ _ _

/-- The sorted distance list of a non-empty cloud has a head that is a
member of the distance list and is `nnLe`-minimal in it. -/
lemma sortedDistList_head (pts : List Pt) (q : Pt) (hne : pts ≠ []) :
    ∃ h t, sortedDistList pts q = h :: t ∧ h ∈ distList pts q ∧
      ∀ e ∈ distList pts q, nnLe h e := by
  have hperm := List.perm_insertionSort nnLe (distList pts q)
  have hlen : (sortedDistList pts q).length = pts.length := by
    unfold sortedDistList
    rw [hperm.length_eq, length_distList]
  have hpos : 0 < (sortedDistList pts q).length := by
    rw [hlen]
    exact List.length_pos.mpr hne
  obtain ⟨h, t, hht⟩ := List.exists_cons_of_ne_nil (List.length_pos.mp hpos)
  have hsorted : List.Sorted nnLe (sortedDistList pts q) :=
    List.sorted_insertionSort nnLe (distList pts q)
  rw [hht] at hsorted
  refine ⟨h, t, hht, ?_, ?_⟩
  · have : h ∈ sortedDistList pts q := by rw [hht]; exact List.mem_cons_self _ _
    exact hperm.subset this
  · intro e he
    have : e ∈ sortedDistList pts q := hperm.mem_iff.mpr he
    rw [hht] at this
    rcases List.mem_cons.mp this with rfl | hmem
    · exact nnLe_refl e
    · exact List.rel_of_sorted_cons hsorted e hmem

/-- Claim C7. For every point cloud and every point `p` already in the
spatial index, `k_nearest(p, 1)` returns that point itself with squared
distance 0, the tie among zero-distance duplicates broken by ascending
point index. -/
theorem kNearest_self_mem (pts : List Pt) (p : Pt) (hp : p ∈ pts) :
    ∃ j, kNearest pts p 1 = .ok [(j, 0)] ∧ pts.getD j default = p ∧
      ∀ i, i < pts.length → pts.getD i default = p → j ≤ i := by
  have hne : pts ≠ [] := List.ne_nil_of_mem hp
  obtain ⟨h, t, hht, hmem, hmin⟩ := sortedDistList_head pts p hne
  have hex : ∃ i0, i0 < pts.length ∧ pts.getD i0 default = p := by
    obtain ⟨n, hn⟩ := List.mem_iff_get.mp hp
    exact ⟨n.1, n.2, by rw [List.getD_eq_get _ _ n.2]; exact hn⟩
  obtain ⟨i0, hi0lt, hi0⟩ := hex
  have hself : (i0, (0 : ℚ)) ∈ distList pts p := by
    rw [mem_distList_iff]
    exact ⟨i0, hi0lt, by rw [hi0, sqDist_self]⟩
  obtain ⟨k, hklt, hk⟩ := (mem_distList_iff pts p h).mp hmem
  have hd_nonneg : 0 ≤ h.2 := by
    rw [hk]
    exact sqDist_nonneg _ _
  have hle := hmin _ hself
  have hd_zero : h.2 = 0 := by
    rcases hle with hlt | ⟨heq, _⟩
    · exact absurd hlt (not_lt.mpr hd_nonneg)
    · exact heq
  have hpt : pts.getD h.1 default = p := by
    have h2 : h.2 = sqDist (pts.getD k default) p := by rw [hk]
    have hzero : sqDist (pts.getD k default) p = 0 := by
      rw [← h2]
      exact hd_zero
    have hfst : h.1 = k := by
      have := congrArg Prod.fst hk
      simpa using this
    rw [hfst]
    exact sqDist_eq_zero_iff.mp hzero
  refine ⟨h.1, ?_, hpt, ?_⟩
  · unfold kNearest
    rw [if_neg (by simp [hne])]
    have hh : h = (h.1, 0) := by
      rw [← hd_zero]
    rw [hht, hh]
    rfl
  · intro i hilt hieq
    have hmemi : (i, (0 : ℚ)) ∈ distList pts p := by
      rw [mem_distList_iff]
      exact ⟨i, hilt, by rw [hieq, sqDist_self]⟩
    rcases hmin _ hmemi with hlt | ⟨_, hle'⟩
    · rw [hd_zero] at hlt
      exact absurd hlt (lt_irrefl 0)
    · exact hle'

/-- Witness for C7 at a concrete cloud. -/
theorem kNearest_self_mem_witness :
    ∃ j, kNearest [Pt.mk 1 2 3, Pt.mk 4 5 6] (Pt.mk 4 5 6) 1 = .ok [(j, 0)] ∧
      ([Pt.mk 1 2 3, Pt.mk 4 5 6].getD j default = Pt.mk 4 5 6) ∧
      ∀ i, i < ([Pt.mk 1 2 3, Pt.mk 4 5 6] : List Pt).length →
        [Pt.mk 1 2 3, Pt.mk 4 5 6].getD i default = Pt.mk 4 5 6 → j ≤ i :=
  kNearest_self_mem [Pt.mk 1 2 3, Pt.mk 4 5 6] (Pt.mk 4 5 6) (by decide)

/-- Index of the nearest point: first component of the head of the
sorted distance list. -/
def nearestIdx (tgtPts : List Pt) (q : Pt) : Nat :=
  ((sortedDistList tgtPts q).headD (0, 0)).1

/-- The correspondence-building loop of `global_registration_without_fpfh`
(`src/matcher/ransac.py`, lines 87–96): for each down-sampled source
point `i`, query the target KD-tree for its single nearest neighbour and
record the index pair `(i, idx)`. The KD-tree query is the spec-modelled
`kNearest`; querying an empty index fails with `InvalidArgument`. -/
def nearestPointCorrespondences (srcPts tgtPts : List Pt) :
    Except CoreError (List (Nat × Nat)) :=
  if srcPts.length ≠ 0 ∧ tgtPts = [] then .error .invalidArgument
  else .ok ((List.range srcPts.length).map fun i =>
    (i, nearestIdx tgtPts (srcPts.getD i default)))

lemma getD_map_range {α : Type} (f : Nat → α) (n i : Nat) (h : i < n) (d : α) :
    ((List.range n).map f).getD i d = f i := by
  rw [List.getD_eq_getElem _ _ (by simpa using h)]
  simp

/-- `nearestIdx` really is the index of the nearest target point, ties
broken by ascending index. -/
lemma nearestIdx_spec (tgtPts : List Pt) (q : Pt) (ht : tgtPts ≠ []) :
    nearestIdx tgtPts q < tgtPts.length ∧
    ∀ j, j < tgtPts.length →
      sqDist (tgtPts.getD (nearestIdx tgtPts q) default) q ≤
        sqDist (tgtPts.getD j default) q ∧
      (sqDist (tgtPts.getD j default) q =
         sqDist (tgtPts.getD (nearestIdx tgtPts q) default) q →
       nearestIdx tgtPts q ≤ j) := by
  obtain ⟨h, t, hht, hmem, hmin⟩ := sortedDistList_head tgtPts q ht
  have hhead : nearestIdx tgtPts q = h.1 := by
    unfold nearestIdx
    rw [hht]
    rfl
  obtain ⟨k, hklt, hk⟩ := (mem_distList_iff tgtPts q h).mp hmem
  have hfst : h.1 = k := by
    have := congrArg Prod.fst hk
    simpa using this
  have hsnd : h.2 = sqDist (tgtPts.getD h.1 default) q := by
    have := congrArg Prod.snd hk
    rw [hfst]
    simpa using this
  constructor
  · rw [hhead, hfst]
    exact hklt
  · intro j hj
    have hjm : (j, sqDist (tgtPts.getD j default) q) ∈ distList tgtPts q := by
      rw [mem_distList_iff]
      exact ⟨j, hj, rfl⟩
    have hle := hmin _ hjm
    rw [hhead]
    constructor
    · rcases hle with hlt | ⟨heq, _⟩
      · rw [← hsnd]
        exact le_of_lt hlt
      · rw [← hsnd]
        exact le_of_eq heq
    · intro heq
      rcases hle with hlt | ⟨_, hle'⟩
      · rw [hsnd, heq] at hlt
        exact absurd hlt (lt_irrefl _)
      · exact hle'

/-- Claim C3. For every non-empty down-sampled source cloud (and
non-empty target index), the geometric nearest-point estimator yields
exactly one correspondence per source point: the set has the source's
length and the `i`-th entry pairs source index `i` with the index of its
nearest neighbour among the target's down-sampled positions. -/
theorem nearest_point_correspondence_per_source (srcPts tgtPts : List Pt)
    (hs : srcPts ≠ []) (ht : tgtPts ≠ []) :
    ∃ cs, nearestPointCorrespondences srcPts tgtPts = .ok cs ∧
      cs.length = srcPts.length ∧
      ∀ i, i < srcPts.length →
        (cs.getD i (0, 0)).1 = i ∧
        (cs.getD i (0, 0)).2 < tgtPts.length ∧
        ∀ j, j < tgtPts.length →
          sqDist (tgtPts.getD (cs.getD i (0, 0)).2 default) (srcPts.getD i default) ≤
            sqDist (tgtPts.getD j default) (srcPts.getD i default) ∧
          (sqDist (tgtPts.getD j default) (srcPts.getD i default) =
             sqDist (tgtPts.getD (cs.getD i (0, 0)).2 default) (srcPts.getD i default) →
           (cs.getD i (0, 0)).2 ≤ j) := by
  refine ⟨(List.range srcPts.length).map fun i =>
    (i, nearestIdx tgtPts (srcPts.getD i default)), ?_, ?_, ?_⟩
  · unfold nearestPointCorrespondences
    rw [if_neg]
    simp [ht]
  · simp
  · intro i hi
    have hget : (((List.range srcPts.length).map fun i =>
        (i, nearestIdx tgtPts (srcPts.getD i default))).getD i (0, 0)) =
        (i, nearestIdx tgtPts (srcPts.getD i default)) :=
      getD_map_range _ _ _ hi _
    rw [hget]
    obtain ⟨hlt, hmin⟩ := nearestIdx_spec tgtPts (srcPts.getD i default) ht
    exact ⟨rfl, hlt, hmin⟩

/-- Witness for C3 at a concrete pair of clouds. -/
theorem nearest_point_correspondence_per_source_witness :
    ∃ cs, nearestPointCorrespondences [Pt.mk 0 0 0, Pt.mk 2 0 0]
        [Pt.mk 1 0 0, Pt.mk 5 5 5] = .ok cs ∧
      cs.length = ([Pt.mk 0 0 0, Pt.mk 2 0 0] : List Pt).length ∧
      ∀ i, i < ([Pt.mk 0 0 0, Pt.mk 2 0 0] : List Pt).length →
        (cs.getD i (0, 0)).1 = i ∧
        (cs.getD i (0, 0)).2 < ([Pt.mk 1 0 0, Pt.mk 5 5 5] : List Pt).length ∧
        ∀ j, j < ([Pt.mk 1 0 0, Pt.mk 5 5 5] : List Pt).length →
          sqDist ([Pt.mk 1 0 0, Pt.mk 5 5 5].getD (cs.getD i (0, 0)).2 default)
              ([Pt.mk 0 0 0, Pt.mk 2 0 0].getD i default) ≤
            sqDist ([Pt.mk 1 0 0, Pt.mk 5 5 5].getD j default)
              ([Pt.mk 0 0 0, Pt.mk 2 0 0].getD i default) ∧
          (sqDist ([Pt.mk 1 0 0, Pt.mk 5 5 5].getD j default)
              ([Pt.mk 0 0 0, Pt.mk 2 0 0].getD i default) =
             sqDist ([Pt.mk 1 0 0, Pt.mk 5 5 5].getD (cs.getD i (0, 0)).2 default)
              ([Pt.mk 0 0 0, Pt.mk 2 0 0].getD i default) →
           (cs.getD i (0, 0)).2 ≤ j) :=
  nearest_point_correspondence_per_source [Pt.mk 0 0 0, Pt.mk 2 0 0]
    [Pt.mk 1 0 0, Pt.mk 5 5 5] (by decide) (by decide)

/-! ### Voxel-grid downsampling

Modelled from the spec §4.2: compute the cloud's axis-aligned bounding
box; give each point the voxel key `floor((point - min) / voxel_size)`
elementwise; group points sharing a key; emit one representative per
group as the arithmetic mean of the grouped positions; output sorted by
voxel key for determinism. -/

/-- Componentwise minimum corner of the axis-aligned bounding box. -/
def minCorner (pts : List Pt) : Pt :=
  pts.foldl (fun m p => ⟨min m.x p.x, min m.y p.y, min m.z p.z⟩) (pts.headD default)

/-- Voxel key of a point: elementwise `floor((p - min) / voxel_size)`. -/
def voxelKey (mn : Pt) (v : ℚ) (p : Pt) : Int × Int × Int :=
  (⌊(p.x - mn.x) / v⌋, ⌊(p.y - mn.y) / v⌋, ⌊(p.z - mn.z) / v⌋)

/-- Arithmetic mean of a list of points (componentwise). -/
def centroid (pts : List Pt) : Pt :=
  ⟨(pts.map Pt.x).sum / (pts.length : ℚ),
   (pts.map Pt.y).sum / (pts.length : ℚ),
   (pts.map Pt.z).sum / (pts.length : ℚ)⟩

/-- Modelled from the spec §4.2: the grouping-and-averaging core of
voxel-grid downsampling (the guard on the arguments is in
`voxel_down_sample`). One representative — the centroid — is emitted per
occupied voxel, in the deterministic order of each key's first
occurrence. -/
def downsampleCore (pts : List Pt) (v : ℚ) : List Pt :=
  let mn := minCorner pts
  ((pts.map (voxelKey mn v)).dedup).map fun k =>
    centroid (pts.filter fun p => decide (voxelKey mn v p = k))

/-- Modelled from the spec §4.2: `downsample(cloud, voxel_size)`, failing
with `InvalidArgument` if `voxel_size ≤ 0` or the input cloud is empty. -/
def voxel_down_sample (pts : List Pt) (v : ℚ) : Except CoreError (List Pt) :=
  if v ≤ 0 ∨ pts = [] then .error .invalidArgument
  else .ok (downsampleCore pts v)

/-- Counterexample to claim C6. Downsampling `[0, 2, 4]` (on the x-axis)
at voxel size 4 merges the first two points into the representative `1`,
giving the already-downsampled cloud `[1, 4]`; the second pass
recomputes voxel keys relative to the new minimum corner `1`, where
`⌊(4-1)/4⌋ = 0` puts both representatives in one voxel, so they merge
into `5/2`: voxel-grid downsampling is not idempotent. -/
theorem voxel_down_sample_not_idempotent :
    voxel_down_sample [Pt.mk 0 0 0, Pt.mk 2 0 0, Pt.mk 4 0 0] 4 =
      .ok [Pt.mk 1 0 0, Pt.mk 4 0 0] ∧
    voxel_down_sample [Pt.mk 1 0 0, Pt.mk 4 0 0] 4 =
      .ok [Pt.mk (5/2) 0 0] ∧
    ([Pt.mk (5/2) 0 0] : List Pt) ≠ [Pt.mk 1 0 0, Pt.mk 4 0 0] := by
  refine ⟨?_, ?_, by simp⟩
  · rw [voxel_down_sample, if_neg (by simp)]
    have h12 : ⌊(2:ℚ) / 4⌋ = 0 := by rw [Int.floor_eq_iff] <;> norm_num
    have h22 : ⌊(4:ℚ) / 4⌋ = 1 := by rw [Int.floor_eq_iff] <;> norm_num
    norm_num [downsampleCore, minCorner, voxelKey, centroid, h12, h22, List.filter]
    simp +decide [List.dedup_cons_of_mem, List.dedup_cons_of_not_mem, List.dedup_nil]
  · rw [voxel_down_sample, if_neg (by simp)]
    have h34 : ⌊(3:ℚ) / 4⌋ = 0 := by rw [Int.floor_eq_iff] <;> norm_num
    norm_num [downsampleCore, minCorner, voxelKey, centroid, h34, List.filter]

lemma downsampleCore_length_le (pts : List Pt) (v : ℚ) :
    (downsampleCore pts v).length ≤ pts.length := by
  unfold downsampleCore
  rw [List.length_map]
  calc ((pts.map (voxelKey (minCorner pts) v)).dedup).length
      ≤ (pts.map (voxelKey (minCorner pts) v)).length :=
        (List.dedup_sublist _).length_le
    _ = pts.length := List.length_map _ _

/-- Claim C6 amended: downsampling is not idempotent (voxel keys are
recomputed relative to the new cloud's minimum corner, which can merge
representatives of distinct original voxels), but re-downsampling at the
same voxel size never increases the number of points. -/
theorem voxel_down_sample_again_length_le (pts : List Pt) (v : ℚ) :
    (downsampleCore (downsampleCore pts v) v).length ≤
      (downsampleCore pts v).length :=
  downsampleCore_length_le _ _

/-! ### RANSAC global registration

Modelled from the spec §4.6. The closed-form SVD rigid alignment of a
3-point sample (`estimate`), the seeded random sample stream (`sample`)
and the 0.999-confidence adaptive stopping rule (`stop`) are real-valued
numerics abstracted as parameters; no claim below depends on their
values, so every theorem quantifies over them. -/

/-- Point pairs named by a sampled triple of pool indices. -/
def samplePairs (srcPts tgtPts : List Pt) (pool : List (Nat × Nat))
    (s : Nat × Nat × Nat) : List (Pt × Pt) :=
  [pool.getD s.1 (0, 0), pool.getD s.2.1 (0, 0), pool.getD s.2.2 (0, 0)].map fun c =>
    (srcPts.getD c.1 default, tgtPts.getD c.2 default)

/-- A sampled triple of pool indices is well formed: in range and
pairwise distinct (spec §4.6 step 1: three distinct correspondences). -/
def tripleOk (pool : List (Nat × Nat)) (s : Nat × Nat × Nat) : Bool :=
  decide (s.1 < pool.length) && decide (s.2.1 < pool.length) &&
  decide (s.2.2 < pool.length) && decide (s.1 ≠ s.2.1) &&
  decide (s.1 ≠ s.2.2) && decide (s.2.1 ≠ s.2.2)

/-- Modelled from the spec §4.6 step 3 (edge-length checker): every
pairwise distance among the sampled source points and the matching
target distance must have ratio within `[0.9, 1/0.9]`; on squared
distances this is `0.81·d_t ≤ d_s ∧ 0.81·d_s ≤ d_t`. -/
def edgeLengthOk (pairs : List (Pt × Pt)) : Bool :=
  decide (∀ a ∈ pairs, ∀ b ∈ pairs,
    (81 / 100) * sqDist a.2 b.2 ≤ sqDist a.1 b.1 ∧
    (81 / 100) * sqDist a.1 b.1 ≤ sqDist a.2 b.2)

/-- Modelled from the spec §4.6 step 3 (distance checker): the candidate
transform must carry each sampled source point to within
`dist_threshold` of its paired target point (squared comparison). -/
def distanceOk (tf : Transform) (pairs : List (Pt × Pt)) (thresh : ℚ) : Bool :=
  decide (∀ a ∈ pairs, sqDist (tf.apply a.1) a.2 ≤ thresh ^ 2)

/-- A sampled triple passes validation: well formed and accepted by both
correspondence checkers under the estimated transform. -/
def sampleAccepted (srcPts tgtPts : List Pt) (pool : List (Nat × Nat)) (thresh : ℚ)
    (estimate : List (Pt × Pt) → Transform) (s : Nat × Nat × Nat) : Bool :=
  tripleOk pool s &&
    (edgeLengthOk (samplePairs srcPts tgtPts pool s) &&
     distanceOk (estimate (samplePairs srcPts tgtPts pool s))
       (samplePairs srcPts tgtPts pool s) thresh)

/-- Modelled from the spec §4.6 step 4: transformed source points matched
to their nearest target point, kept when within `dist_threshold`;
entries are `(source index, target index, squared distance)`. -/
def inlierMatches (srcPts tgtPts : List Pt) (tf : Transform) (thresh : ℚ) :
    List (Nat × Nat × ℚ) :=
  (List.range srcPts.length).filterMap fun i =>
    match nearestNbr tgtPts (tf.apply (srcPts.getD i default)) with
    | some jd => if jd.2 ≤ thresh ^ 2 then some (i, jd.1, jd.2) else none
    | none => none

/-- Modelled from the spec §4.6 step 4 and the glossary: fitness is the
fraction of target points with an inlier correspondence, inlier RMSE the
square root of the mean squared inlier distance. Returns
`(fitness, inlier_rmse, correspondence_set)`. -/
def evaluateRegistration (srcPts tgtPts : List Pt) (tf : Transform) (thresh : ℚ) :
    ℚ × ℚ × List (Nat × Nat) :=
  let matched := inlierMatches srcPts tgtPts tf thresh
  (((matched.map fun m => m.2.1).dedup.length : ℚ) / (tgtPts.length : ℚ),
   Rat.sqrt ((matched.map fun m => m.2.2).sum / (matched.length : ℚ)),
   matched.map fun m => (m.1, m.2.1))

/-- Full evaluation of one accepted sample: estimated transform plus its
fitness, RMSE and correspondence set. -/
def evalSample (srcPts tgtPts : List Pt) (pool : List (Nat × Nat)) (thresh : ℚ)
    (estimate : List (Pt × Pt) → Transform) (s : Nat × Nat × Nat) :
    RegistrationResult :=
  let tf := estimate (samplePairs srcPts tgtPts pool s)
  let e := evaluateRegistration srcPts tgtPts tf thresh
  ⟨tf, e.1, e.2.1, e.2.2⟩

/-- Spec §4.6 step 5: retain the best transform by fitness, ties broken
by lower RMSE. -/
def mergeBest (best : Option RegistrationResult) (r : RegistrationResult) :
    Option RegistrationResult :=
  match best with
  | none => some r
  | some b =>
    if b.fitness < r.fitness ∨ (b.fitness = r.fitness ∧ r.inlier_rmse < b.inlier_rmse)
    then some r else some b

/-- The adaptive stopping rule fires only once some sample was accepted
(with no best there is no inlier ratio to stop on). -/
def stopEarly (stop : ℚ → Nat → Bool) (best : Option RegistrationResult)
    (i : Nat) : Bool :=
  match best with
  | none => false
  | some b => stop b.fitness i

/-- Modelled from the spec §4.6: the RANSAC iteration loop; `fuel` is the
number of remaining iterations and `i` the current iteration index. -/
def ransacAux (srcPts tgtPts : List Pt) (pool : List (Nat × Nat)) (thresh : ℚ)
    (estimate : List (Pt × Pt) → Transform) (sample : Nat → Nat × Nat × Nat)
    (stop : ℚ → Nat → Bool) :
    Nat → Nat → Option RegistrationResult → Option RegistrationResult
  | 0, _, best => best
  | fuel + 1, i, best =>
    if stopEarly stop best i then best
    else
      ransacAux srcPts tgtPts pool thresh estimate sample stop fuel (i + 1)
        (if sampleAccepted srcPts tgtPts pool thresh estimate (sample i)
         then mergeBest best (evalSample srcPts tgtPts pool thresh estimate (sample i))
         else best)

/-- The Exhausted terminal state (spec §4.6): identity transform with
fitness 0. -/
def exhaustedResult : RegistrationResult := ⟨identityTransform, 0, 0, []⟩

/-- Modelled from the spec §4.6: RANSAC registration over a candidate
correspondence pool — `InsufficientCorrespondences` when the pool has
fewer than 3 entries; otherwise the best accepted sample within
`maxIter` iterations, or the Exhausted result when none is accepted. -/
def ransacRegistration (srcPts tgtPts : List Pt) (pool : List (Nat × Nat))
    (thresh : ℚ) (maxIter : Nat) (estimate : List (Pt × Pt) → Transform)
    (sample : Nat → Nat × Nat × Nat) (stop : ℚ → Nat → Bool) :
    Except CoreError RegistrationResult :=
  if pool.length < 3 then .error .insufficientCorrespondences
  else .ok ((ransacAux srcPts tgtPts pool thresh estimate sample stop
    maxIter 0 none).getD exhaustedResult)

lemma ransacAux_none (srcPts tgtPts : List Pt) (pool : List (Nat × Nat))
    (thresh : ℚ) (estimate : List (Pt × Pt) → Transform)
    (sample : Nat → Nat × Nat × Nat) (stop : ℚ → Nat → Bool) :
    ∀ fuel i, (∀ j, i ≤ j → j < i + fuel →
        sampleAccepted srcPts tgtPts pool thresh estimate (sample j) = false) →
      ransacAux srcPts tgtPts pool thresh estimate sample stop fuel i none = none := by
  intro fuel
  induction fuel with
  | zero => intro i _; rfl
  | succ n ih =>
    intro i h
    rw [ransacAux]
    have hstop : stopEarly stop none i = false := rfl
    rw [hstop]
    simp only [Bool.false_eq_true, if_false]
    rw [h i (le_refl i) (by omega)]
    simp only [Bool.false_eq_true, if_false]
    exact ih (i + 1) (fun j hj1 hj2 => h j (by omega) (by omega))

/-- Claim C1. A candidate pool with fewer than 3 entries fails with
`InsufficientCorrespondences`; and whenever no sampled correspondence
triple passes the checkers within `max_iterations` (including
`max_iterations = 0`), the run returns the identity transformation with
fitness 0 rather than an error. -/
theorem ransac_pool_guard_and_exhausted (srcPts tgtPts : List Pt)
    (pool : List (Nat × Nat)) (thresh : ℚ) (maxIter : Nat)
    (estimate : List (Pt × Pt) → Transform) (sample : Nat → Nat × Nat × Nat)
    (stop : ℚ → Nat → Bool) :
    (pool.length < 3 →
      ransacRegistration srcPts tgtPts pool thresh maxIter estimate sample stop =
        .error .insufficientCorrespondences) ∧
    (3 ≤ pool.length →
      (∀ i, i < maxIter →
        sampleAccepted srcPts tgtPts pool thresh estimate (sample i) = false) →
      ransacRegistration srcPts tgtPts pool thresh maxIter estimate sample stop =
        .ok ⟨identityTransform, 0, 0, []⟩) := by
  constructor
  · intro h
    unfold ransacRegistration
    rw [if_pos h]
  · intro h3 hnone
    unfold ransacRegistration
    rw [if_neg (not_lt.mpr h3)]
    rw [ransacAux_none srcPts tgtPts pool thresh estimate sample stop maxIter 0
      (fun j _ hj => hnone j (by omega))]
    rfl

/-- Witness for C1: an empty pool fails, and a 3-entry pool with
`max_iterations = 0` returns the identity transform with fitness 0. -/
theorem ransac_pool_guard_and_exhausted_witness :
    ransacRegistration [] [] [] 1 5 (fun _ => identityTransform)
        (fun _ => (0, 1, 2)) (fun _ _ => false) =
      .error .insufficientCorrespondences ∧
    ransacRegistration [] [] [(0, 0), (1, 1), (2, 2)] 1 0
        (fun _ => identityTransform) (fun _ => (0, 1, 2)) (fun _ _ => false) =
      .ok ⟨identityTransform, 0, 0, []⟩ :=
  ⟨(ransac_pool_guard_and_exhausted [] [] [] 1 5 (fun _ => identityTransform)
      (fun _ => (0, 1, 2)) (fun _ _ => false)).1 (by decide),
   (ransac_pool_guard_and_exhausted [] [] [(0, 0), (1, 1), (2, 2)] 1 0
      (fun _ => identityTransform) (fun _ => (0, 1, 2)) (fun _ _ => false)).2
     (by decide) (by simp)⟩

/-! ### Bounds on fitness and inlier RMSE -/

lemma inlierMatches_target_lt (srcPts tgtPts : List Pt) (tf : Transform)
    (thresh : ℚ) :
    ∀ m ∈ inlierMatches srcPts tgtPts tf thresh, m.2.1 < tgtPts.length := by
  intro m hm
  obtain ⟨i, _, hi⟩ := List.mem_filterMap.mp hm
  rcases hnn : nearestNbr tgtPts (tf.apply (srcPts.getD i default)) with _ | jd
  · rw [hnn] at hi
    exact absurd hi (by simp)
  · rw [hnn] at hi
    dsimp only at hi
    by_cases hth : jd.2 ≤ thresh ^ 2
    · rw [if_pos hth] at hi
      have hjm : jd ∈ distList tgtPts (tf.apply (srcPts.getD i default)) := by
        have hmem : jd ∈ sortedDistList tgtPts (tf.apply (srcPts.getD i default)) :=
          List.mem_of_mem_head? hnn
        exact (List.perm_insertionSort nnLe _).subset hmem
      obtain ⟨k, hk, hkeq⟩ := (mem_distList_iff _ _ _).mp hjm
      have : m = (i, jd.1, jd.2) := by
        have := Option.some.inj hi
        exact this.symm
      rw [this]
      have : jd.1 = k := by
        have := congrArg Prod.fst hkeq
        simpa using this
      simpa [this] using hk
    · rw [if_neg hth] at hi
      exact absurd hi (by simp)

/-- The fitness and RMSE produced by `evaluateRegistration` always
satisfy `0 ≤ fitness ≤ 1` and `0 ≤ rmse`. -/
lemma evaluateRegistration_bounds (srcPts tgtPts : List Pt) (tf : Transform)
    (thresh : ℚ) :
    0 ≤ (evaluateRegistration srcPts tgtPts tf thresh).1 ∧
    (evaluateRegistration srcPts tgtPts tf thresh).1 ≤ 1 ∧
    0 ≤ (evaluateRegistration srcPts tgtPts tf thresh).2.1 := by
  unfold evaluateRegistration
  refine ⟨?_, ?_, Rat.sqrt_nonneg _⟩
  · exact div_nonneg (Nat.cast_nonneg _) (Nat.cast_nonneg _)
  · by_cases h0 : tgtPts.length = 0
    · simp [h0]
    · have hpos : (0 : ℚ) < (tgtPts.length : ℚ) := by
        exact_mod_cast Nat.pos_of_ne_zero h0
      rw [div_le_one hpos]
      have hlist := (inlierMatches srcPts tgtPts tf thresh).map fun m => m.2.1
      have hno : ((inlierMatches srcPts tgtPts tf thresh).map
          fun m => m.2.1).dedup.Nodup := List.nodup_dedup _
      have hbound : ∀ j ∈ ((inlierMatches srcPts tgtPts tf thresh).map
          fun m => m.2.1).dedup, j < tgtPts.length := by
        intro j hj
        obtain ⟨m, hm, hmj⟩ := List.mem_map.mp (List.mem_dedup.mp hj)
        rw [← hmj]
        exact inlierMatches_target_lt srcPts tgtPts tf thresh m hm
      have hsub : (((inlierMatches srcPts tgtPts tf thresh).map
          fun m => m.2.1).dedup).toFinset ⊆ Finset.range tgtPts.length := by
        intro j hj
        exact Finset.mem_range.mpr (hbound j (List.mem_toFinset.mp hj))
      have hcard : (((inlierMatches srcPts tgtPts tf thresh).map
          fun m => m.2.1).dedup).length ≤ tgtPts.length := by
        calc (((inlierMatches srcPts tgtPts tf thresh).map
            fun m => m.2.1).dedup).length
            = (((inlierMatches srcPts tgtPts tf thresh).map
              fun m => m.2.1).dedup).toFinset.card :=
              (List.toFinset_card_of_nodup hno).symm
          _ ≤ (Finset.range tgtPts.length).card := Finset.card_le_card hsub
          _ = tgtPts.length := Finset.card_range _
      exact_mod_cast hcard

/-- Bounds predicate shared by the registration claims. -/
def resultBounded (r : RegistrationResult) : Prop :=
  0 ≤ r.fitness ∧ r.fitness ≤ 1 ∧ 0 ≤ r.inlier_rmse

lemma evalSample_bounded (srcPts tgtPts : List Pt) (pool : List (Nat × Nat))
    (thresh : ℚ) (estimate : List (Pt × Pt) → Transform) (s : Nat × Nat × Nat) :
    resultBounded (evalSample srcPts tgtPts pool thresh estimate s) :=
  evaluateRegistration_bounds srcPts tgtPts _ thresh

lemma mergeBest_bounded {best : Option RegistrationResult}
    {r : RegistrationResult}
    (hb : ∀ b, best = some b → resultBounded b) (hr : resultBounded r) :
    ∀ b, mergeBest best r = some b → resultBounded b := by
  intro b hmb
  rcases best with _ | b0
  · unfold mergeBest at hmb
    rw [← Option.some.inj hmb]
    exact hr
  · unfold mergeBest at hmb
    dsimp only at hmb
    by_cases hc : b0.fitness < r.fitness ∨
        (b0.fitness = r.fitness ∧ r.inlier_rmse < b0.inlier_rmse)
    · rw [if_pos hc] at hmb
      rw [← Option.some.inj hmb]
      exact hr
    · rw [if_neg hc] at hmb
      rw [← Option.some.inj hmb]
      exact hb b0 rfl

lemma ransacAux_bounded (srcPts tgtPts : List Pt) (pool : List (Nat × Nat))
    (thresh : ℚ) (estimate : List (Pt × Pt) → Transform)
    (sample : Nat → Nat × Nat × Nat) (stop : ℚ → Nat → Bool) :
    ∀ fuel i best, (∀ b, best = some b → resultBounded b) →
      ∀ b, ransacAux srcPts tgtPts pool thresh estimate sample stop fuel i best =
        some b → resultBounded b := by
  intro fuel
  induction fuel with
  | zero =>
    intro i best hbest b hb
    exact hbest b hb
  | succ n ih =>
    intro i best hbest b hb
    rw [ransacAux] at hb
    by_cases hstop : stopEarly stop best i = true
    · rw [if_pos hstop] at hb
      exact hbest b hb
    · rw [if_neg hstop] at hb
      by_cases hacc : sampleAccepted srcPts tgtPts pool thresh estimate (sample i) = true
      · rw [if_pos hacc] at hb
        exact ih (i + 1) _
          (mergeBest_bounded hbest (evalSample_bounded srcPts tgtPts pool thresh estimate _))
          b hb
      · rw [if_neg hacc] at hb
        exact ih (i + 1) best hbest b hb

lemma exhaustedResult_bounded : resultBounded exhaustedResult := by
  unfold resultBounded exhaustedResult
  norm_num

/-- Every result an RANSAC run can return is bounded. -/
lemma ransacRegistration_bounded (srcPts tgtPts : List Pt)
    (pool : List (Nat × Nat)) (thresh : ℚ) (maxIter : Nat)
    (estimate : List (Pt × Pt) → Transform) (sample : Nat → Nat × Nat × Nat)
    (stop : ℚ → Nat → Bool) (r : RegistrationResult)
    (h : ransacRegistration srcPts tgtPts pool thresh maxIter estimate sample stop =
      .ok r) : resultBounded r := by
  unfold ransacRegistration at h
  by_cases hp : pool.length < 3
  · rw [if_pos hp] at h
    exact absurd h (by simp)
  · rw [if_neg hp] at h
    have h' := Except.ok.inj h
    rcases haux : ransacAux srcPts tgtPts pool thresh estimate sample stop
        maxIter 0 none with _ | b
    · rw [haux] at h'
      rw [← h']
      exact exhaustedResult_bounded
    · rw [haux] at h'
      have hb := ransacAux_bounded srcPts tgtPts pool thresh estimate sample stop
        maxIter 0 none (by intro b hb; exact absurd hb (by simp)) b haux
      rw [← h']
      exact hb

/-! ### ICP refinement (point-to-plane) and the stage wrappers -/

/-- Modelled from the spec §4.7: one ICP step — solve the linearized
point-to-plane system over the current inlier correspondences (the
least-squares solve of the 6-unknown normal equations is abstracted as
the `solve` parameter, `none` signalling a `DegenerateSystem`), compose
the incremental transform with the current estimate and re-evaluate. -/
def icpStep (srcPts tgtPts : List Pt) (thresh : ℚ)
    (solve : List (Nat × Nat) → Option Transform) (cur : RegistrationResult) :
    Option RegistrationResult :=
  match solve cur.correspondence_set with
  | none => none
  | some inc =>
    let tf := inc.compose cur.transformation
    let e := evaluateRegistration srcPts tgtPts tf thresh
    some ⟨tf, e.1, e.2.1, e.2.2⟩

/-- Modelled from the spec §4.7: the ICP loop — on `DegenerateSystem`
return the last valid result; stop when both the fitness and RMSE deltas
fall below their tolerances or when the iteration budget is spent. -/
def icpAux (srcPts tgtPts : List Pt) (thresh : ℚ)
    (solve : List (Nat × Nat) → Option Transform) (epsF epsR : ℚ) :
    Nat → RegistrationResult → RegistrationResult
  | 0, cur => cur
  | fuel + 1, cur =>
    match icpStep srcPts tgtPts thresh solve cur with
    | none => cur
    | some nxt =>
      if |nxt.fitness - cur.fitness| < epsF ∧ |nxt.inlier_rmse - cur.inlier_rmse| < epsR
      then nxt
      else icpAux srcPts tgtPts thresh solve epsF epsR fuel nxt

/-- The fields of a `Ply` object consumed by the registration stages:
the full cloud `pcd`, the down-sampled cloud `pcd_down` and the optional
FPFH feature set `pcd_fpfh` (`src/ply/ply.py`). -/
structure Ply where
  pcd : List Pt
  pcd_down : List Pt
  pcd_fpfh : Option (List (List ℚ))

/-- `BenchmarkResults` (`src/utils/timer.py`, lines 29–47): three
insertion-ordered dictionaries from label to value. -/
structure BenchmarkResults where
  timings : List (String × ℚ)
  fitness_scores : List (String × ℚ)
  inlier_rmse : List (String × ℚ)
deriving DecidableEq, Repr

/-- Python dict assignment `d[name] = value`: replace the value in place
when the key is present, else append. -/
def dictSet : List (String × ℚ) → String → ℚ → List (String × ℚ)
  | [], k, v => [(k, v)]
  | e :: es, k, v => if e.1 = k then (k, v) :: es else e :: dictSet es k v

/-- `BenchmarkResults.add_timing`: `self.timings[name] = elapsed`. -/
def BenchmarkResults.add_timing (b : BenchmarkResults) (n : String) (v : ℚ) :
    BenchmarkResults :=
  { b with timings := dictSet b.timings n v }

/-- `BenchmarkResults.add_fitness`: `self.fitness_scores[name] = fitness`. -/
def BenchmarkResults.add_fitness (b : BenchmarkResults) (n : String) (v : ℚ) :
    BenchmarkResults :=
  { b with fitness_scores := dictSet b.fitness_scores n v }

/-- `BenchmarkResults.add_rmse`: `self.inlier_rmse[name] = rmse`. -/
def BenchmarkResults.add_rmse (b : BenchmarkResults) (n : String) (v : ℚ) :
    BenchmarkResults :=
  { b with inlier_rmse := dictSet b.inlier_rmse n v }

/-- `refine_registration` (`src/matcher/icp.py`): point-to-plane ICP from
an initial transform at distance threshold `voxel_size * 0.4`, then
optional benchmark recording under the label `"ICP"`. `elapsed` stands
for the measured wall-clock duration, which the model cannot compute;
the returned pair is the result together with the updated sink. -/
def refine_registration (src tgt : Ply) (init_trans : Transform)
    (voxel_size : ℚ) (solve : List (Nat × Nat) → Option Transform)
    (epsF epsR : ℚ) (maxIter : Nat) (elapsed : ℚ)
    (benchmark_results : Option BenchmarkResults) :
    RegistrationResult × Option BenchmarkResults :=
  let thresh := voxel_size * (2 / 5)
  let e0 := evaluateRegistration src.pcd tgt.pcd init_trans thresh
  let result := icpAux src.pcd tgt.pcd thresh solve epsF epsR maxIter
    ⟨init_trans, e0.1, e0.2.1, e0.2.2⟩
  (result,
   benchmark_results.map fun b =>
     ((b.add_timing "ICP" elapsed).add_fitness "ICP" result.fitness).add_rmse
       "ICP" result.inlier_rmse)

lemma icpAux_bounded (srcPts tgtPts : List Pt) (thresh : ℚ)
    (solve : List (Nat × Nat) → Option Transform) (epsF epsR : ℚ) :
    ∀ fuel cur, resultBounded cur →
      resultBounded (icpAux srcPts tgtPts thresh solve epsF epsR fuel cur) := by
  intro fuel
  induction fuel with
  | zero => intro cur h; exact h
  | succ n ih =>
    intro cur h
    rw [icpAux]
    rcases hstep : icpStep srcPts tgtPts thresh solve cur with _ | nxt
    · exact h
    · have hnxt : resultBounded nxt := by
        unfold icpStep at hstep
        rcases hsol : solve cur.correspondence_set with _ | inc
        · rw [hsol] at hstep
          exact absurd hstep (by simp)
        · rw [hsol] at hstep
          dsimp only at hstep
          rw [← Option.some.inj hstep]
          exact evaluateRegistration_bounds srcPts tgtPts _ thresh
      dsimp only
      by_cases hconv : |nxt.fitness - cur.fitness| < epsF ∧
          |nxt.inlier_rmse - cur.inlier_rmse| < epsR
      · rw [if_pos hconv]
        exact hnxt
      · rw [if_neg hconv]
        exact ih nxt hnxt

/-- Claim C5. Every `RegistrationResult` returned by RANSAC global
registration or by ICP refinement satisfies `fitness ∈ [0, 1]` and
`inlier_rmse ≥ 0`. -/
theorem registration_results_bounded (srcPts tgtPts : List Pt)
    (pool : List (Nat × Nat)) (thresh : ℚ) (maxIter : Nat)
    (estimate : List (Pt × Pt) → Transform) (sample : Nat → Nat × Nat × Nat)
    (stop : ℚ → Nat → Bool) (src tgt : Ply) (init_trans : Transform)
    (voxel_size : ℚ) (solve : List (Nat × Nat) → Option Transform)
    (epsF epsR : ℚ) (icpIter : Nat) (elapsed : ℚ)
    (bench : Option BenchmarkResults) :
    (∀ r, ransacRegistration srcPts tgtPts pool thresh maxIter estimate
        sample stop = .ok r →
      0 ≤ r.fitness ∧ r.fitness ≤ 1 ∧ 0 ≤ r.inlier_rmse) ∧
    (0 ≤ (refine_registration src tgt init_trans voxel_size solve epsF epsR
        icpIter elapsed bench).1.fitness ∧
     (refine_registration src tgt init_trans voxel_size solve epsF epsR
        icpIter elapsed bench).1.fitness ≤ 1 ∧
     0 ≤ (refine_registration src tgt init_trans voxel_size solve epsF epsR
        icpIter elapsed bench).1.inlier_rmse) := by
  constructor
  · intro r hr
    exact ransacRegistration_bounded srcPts tgtPts pool thresh maxIter estimate
      sample stop r hr
  · have h0 : resultBounded ⟨init_trans,
        (evaluateRegistration src.pcd tgt.pcd init_trans (voxel_size * (2 / 5))).1,
        (evaluateRegistration src.pcd tgt.pcd init_trans (voxel_size * (2 / 5))).2.1,
        (evaluateRegistration src.pcd tgt.pcd init_trans (voxel_size * (2 / 5))).2.2⟩ :=
      evaluateRegistration_bounds src.pcd tgt.pcd init_trans (voxel_size * (2 / 5))
    exact icpAux_bounded src.pcd tgt.pcd (voxel_size * (2 / 5)) solve epsF epsR
      icpIter _ h0

/-- Witness for C5 at concrete inputs (a 3-entry pool with 0 RANSAC
iterations, and an ICP run on empty clouds). -/
theorem registration_results_bounded_witness :
    (0 ≤ exhaustedResult.fitness ∧ exhaustedResult.fitness ≤ 1 ∧
      0 ≤ exhaustedResult.inlier_rmse) ∧
    (0 ≤ (refine_registration ⟨[], [], none⟩ ⟨[], [], none⟩ identityTransform 1
        (fun _ => none) 1 1 30 0 none).1.fitness ∧
     (refine_registration ⟨[], [], none⟩ ⟨[], [], none⟩ identityTransform 1
        (fun _ => none) 1 1 30 0 none).1.fitness ≤ 1 ∧
     0 ≤ (refine_registration ⟨[], [], none⟩ ⟨[], [], none⟩ identityTransform 1
        (fun _ => none) 1 1 30 0 none).1.inlier_rmse) :=
  ⟨(registration_results_bounded [] [] [(0, 0), (1, 1), (2, 2)] 1 0
      (fun _ => identityTransform) (fun _ => (0, 1, 2)) (fun _ _ => false)
      ⟨[], [], none⟩ ⟨[], [], none⟩ identityTransform 1 (fun _ => none) 1 1 30 0
      none).1 exhaustedResult rfl,
   (registration_results_bounded [] [] [(0, 0), (1, 1), (2, 2)] 1 0
      (fun _ => identityTransform) (fun _ => (0, 1, 2)) (fun _ _ => false)
      ⟨[], [], none⟩ ⟨[], [], none⟩ identityTransform 1 (fun _ => none) 1 1 30 0
      none).2⟩

/-! ### The two global-registration entry points -/

/-- Squared Euclidean distance between two feature vectors. -/
def featSqDist (a b : List ℚ) : ℚ :=
  (List.zipWith (fun x y => (x - y) ^ 2) a b).sum

/-- Modelled from the spec §4.5 (feature-based strategy): each source
point paired with the target point whose FPFH descriptor is nearest in
33-dimensional feature space (ties by ascending index). -/
def featureCorrespondences (fs ft : List (List ℚ)) : List (Nat × Nat) :=
  (List.range fs.length).map fun i =>
    (i, (((indexDists (featSqDist (fs.getD i [])) ft).insertionSort
      nnLe).headD (0, 0)).1)

/-- `global_registration` (`src/matcher/ransac.py`, lines 12–60):
feature-based RANSAC registration. It fails with `FeatureUnavailable`
when either cloud lacks FPFH descriptors (the `ValueError` raised at
lines 31–33); otherwise it runs RANSAC at distance threshold
`voxel_size * 1.5` on the feature-matched candidate pool. On success the
timing, fitness and RMSE are recorded under `"RANSAC (with FPFH)"` when
a benchmark sink is supplied (`elapsed` stands for the measured
wall-clock duration, which the model cannot compute). -/
def global_registration (src tgt : Ply) (voxel_size : ℚ) (iteration : Nat)
    (estimate : List (Pt × Pt) → Transform) (sample : Nat → Nat × Nat × Nat)
    (stop : ℚ → Nat → Bool) (elapsed : ℚ)
    (benchmark_results : Option BenchmarkResults) :
    Except CoreError RegistrationResult × Option BenchmarkResults :=
  let result : Except CoreError RegistrationResult :=
    match src.pcd_fpfh, tgt.pcd_fpfh with
    | some fs, some ft =>
      ransacRegistration src.pcd_down tgt.pcd_down (featureCorrespondences fs ft)
        (voxel_size * (3 / 2)) iteration estimate sample stop
    | _, _ => .error .featureUnavailable
  (result,
   match result with
   | .ok r =>
     benchmark_results.map fun b =>
       ((b.add_timing "RANSAC (with FPFH)" elapsed).add_fitness
          "RANSAC (with FPFH)" r.fitness).add_rmse
         "RANSAC (with FPFH)" r.inlier_rmse
   | .error _ => benchmark_results)

/-- `global_registration_without_fpfh` (`src/matcher/ransac.py`, lines
63–118): build one nearest-point correspondence per down-sampled source
point, then run RANSAC on that pool at distance threshold
`voxel_size * 1.5`; on success record under `"RANSAC (without FPFH)"`. -/
def global_registration_without_fpfh (src tgt : Ply) (voxel_size : ℚ)
    (iteration : Nat) (estimate : List (Pt × Pt) → Transform)
    (sample : Nat → Nat × Nat × Nat) (stop : ℚ → Nat → Bool) (elapsed : ℚ)
    (benchmark_results : Option BenchmarkResults) :
    Except CoreError RegistrationResult × Option BenchmarkResults :=
  let result : Except CoreError RegistrationResult :=
    match nearestPointCorrespondences src.pcd_down tgt.pcd_down with
    | .error e => .error e
    | .ok pool =>
      ransacRegistration src.pcd_down tgt.pcd_down pool (voxel_size * (3 / 2))
        iteration estimate sample stop
  (result,
   match result with
   | .ok r =>
     benchmark_results.map fun b =>
       ((b.add_timing "RANSAC (without FPFH)" elapsed).add_fitness
          "RANSAC (without FPFH)" r.fitness).add_rmse
         "RANSAC (without FPFH)" r.inlier_rmse
   | .error _ => benchmark_results)

lemma ransacRegistration_ne_featureUnavailable (srcPts tgtPts : List Pt)
    (pool : List (Nat × Nat)) (thresh : ℚ) (maxIter : Nat)
    (estimate : List (Pt × Pt) → Transform) (sample : Nat → Nat × Nat × Nat)
    (stop : ℚ → Nat → Bool) :
    ransacRegistration srcPts tgtPts pool thresh maxIter estimate sample stop ≠
      .error .featureUnavailable := by
  unfold ransacRegistration
  by_cases h : pool.length < 3
  · rw [if_pos h]
    simp
  · rw [if_neg h]
    simp

/-- Claim C2. Feature-based global registration fails with
`FeatureUnavailable` if and only if at least one of the source or target
clouds has no FPFH descriptors; when both descriptor sets are present it
never raises that error. -/
theorem global_registration_feature_guard (src tgt : Ply) (voxel_size : ℚ)
    (iteration : Nat) (estimate : List (Pt × Pt) → Transform)
    (sample : Nat → Nat × Nat × Nat) (stop : ℚ → Nat → Bool) (elapsed : ℚ)
    (bench : Option BenchmarkResults) :
    (global_registration src tgt voxel_size iteration estimate sample stop
        elapsed bench).1 = .error .featureUnavailable ↔
      (src.pcd_fpfh = none ∨ tgt.pcd_fpfh = none) := by
  unfold global_registration
  rcases hs : src.pcd_fpfh with _ | fs <;> rcases ht : tgt.pcd_fpfh with _ | ft
  · simp
  · simp
  · simp
  · dsimp only
    constructor
    · intro h
      exact absurd h (ransacRegistration_ne_featureUnavailable _ _ _ _ _ _ _ _)
    · rintro (h | h) <;> exact absurd h (by simp)

/-- Claim C8. The observation sink is purely informational: each of the
three stage wrappers returns the same registration outcome whatever
benchmark sink (or none) is supplied; recording never alters the
computation's result. -/
theorem benchmark_sink_informational (src tgt : Ply) (voxel_size : ℚ)
    (iteration : Nat) (estimate : List (Pt × Pt) → Transform)
    (sample : Nat → Nat × Nat × Nat) (stop : ℚ → Nat → Bool) (elapsed : ℚ)
    (init_trans : Transform) (solve : List (Nat × Nat) → Option Transform)
    (epsF epsR : ℚ) (icpIter : Nat) (b1 b2 : Option BenchmarkResults) :
    (global_registration src tgt voxel_size iteration estimate sample stop
        elapsed b1).1 =
      (global_registration src tgt voxel_size iteration estimate sample stop
        elapsed b2).1 ∧
    (global_registration_without_fpfh src tgt voxel_size iteration estimate
        sample stop elapsed b1).1 =
      (global_registration_without_fpfh src tgt voxel_size iteration estimate
        sample stop elapsed b2).1 ∧
    (refine_registration src tgt init_trans voxel_size solve epsF epsR icpIter
        elapsed b1).1 =
      (refine_registration src tgt init_trans voxel_size solve epsF epsR icpIter
        elapsed b2).1 :=
  ⟨rfl, rfl, rfl⟩

/-! ### Last-wins recording semantics of `BenchmarkResults` -/

/-- One recording call on a `BenchmarkResults` sink. -/
inductive BenchOp where
  | timing (name : String) (value : ℚ)
  | fit (name : String) (value : ℚ)
  | rmse (name : String) (value : ℚ)

/-- Apply one recording call (`add_timing` / `add_fitness` / `add_rmse`). -/
def applyBenchOp (b : BenchmarkResults) : BenchOp → BenchmarkResults
  | .timing n v => b.add_timing n v
  | .fit n v => b.add_fitness n v
  | .rmse n v => b.add_rmse n v

/-- Apply a sequence of recording calls in order. -/
def applyBenchOps (b : BenchmarkResults) (ops : List BenchOp) : BenchmarkResults :=
  ops.foldl applyBenchOp b

/-- Python dictionary lookup `d.get(k)`. -/
def dictGet (d : List (String × ℚ)) (k : String) : Option ℚ :=
  (d.find? fun e => decide (e.1 = k)).map fun e => e.2

/-- A freshly constructed `BenchmarkResults()`: three empty dicts. -/
def emptyBench : BenchmarkResults := ⟨[], [], []⟩

/-- The value carried by the most recent `add_timing` call with the given
label (starting from `acc`), read off the call sequence itself. -/
def lastTimingFrom (k : String) : List BenchOp → Option ℚ → Option ℚ
  | [], acc => acc
  | .timing n v :: ops, acc => lastTimingFrom k ops (if n = k then some v else acc)
  | _ :: ops, acc => lastTimingFrom k ops acc

/-- The value carried by the most recent `add_fitness` call with the
given label (starting from `acc`). -/
def lastFitFrom (k : String) : List BenchOp → Option ℚ → Option ℚ
  | [], acc => acc
  | .fit n v :: ops, acc => lastFitFrom k ops (if n = k then some v else acc)
  | _ :: ops, acc => lastFitFrom k ops acc

/-- The value carried by the most recent `add_rmse` call with the given
label (starting from `acc`). -/
def lastRmseFrom (k : String) : List BenchOp → Option ℚ → Option ℚ
  | [], acc => acc
  | .rmse n v :: ops, acc => lastRmseFrom k ops (if n = k then some v else acc)
  | _ :: ops, acc => lastRmseFrom k ops acc

lemma dictGet_dictSet (d : List (String × ℚ)) (n : String) (v : ℚ) (k : String) :
    dictGet (dictSet d n v) k = if n = k then some v else dictGet d k := by
  induction d with
  | nil =>
    by_cases h : n = k
    · simp [dictSet, dictGet, h]
    · simp [dictSet, dictGet, h]
  | cons e es ih =>
    by_cases he : e.1 = n
    · rw [dictSet, if_pos he]
      by_cases hk : n = k
      · simp [dictGet, hk]
      · have : ¬e.1 = k := by rw [he]; exact hk
        simp [dictGet, hk, this, List.find?]
    · rw [dictSet, if_neg he]
      by_cases hk : e.1 = k
      · have hnk : ¬n = k := by
          intro hn
          exact he (by rw [hn, hk])
        simp [dictGet, hk, hnk, List.find?]
      · have h1 : dictGet (e :: dictSet es n v) k = dictGet (dictSet es n v) k := by
          unfold dictGet
          rw [List.find?_cons_of_neg _ (by simpa using hk)]
        have h2 : dictGet (e :: es) k = dictGet es k := by
          unfold dictGet
          rw [List.find?_cons_of_neg _ (by simpa using hk)]
        rw [h1, h2]
        exact ih

lemma applyBenchOps_timings (ops : List BenchOp) (k : String) :
    ∀ b, dictGet (applyBenchOps b ops).timings k =
      lastTimingFrom k ops (dictGet b.timings k) := by
  induction ops with
  | nil => intro b; rfl
  | cons op ops ih =>
    intro b
    rcases op with ⟨n, v⟩ | ⟨n, v⟩ | ⟨n, v⟩
    · rw [applyBenchOps, List.foldl_cons,
        show applyBenchOp b (.timing n v) = b.add_timing n v from rfl,
        lastTimingFrom]
      rw [show (ops.foldl applyBenchOp (b.add_timing n v)) =
        applyBenchOps (b.add_timing n v) ops from rfl]
      rw [ih (b.add_timing n v)]
      rw [show (b.add_timing n v).timings = dictSet b.timings n v from rfl]
      rw [dictGet_dictSet]
    · exact ih (b.add_fitness n v)
    · exact ih (b.add_rmse n v)

lemma applyBenchOps_fitness (ops : List BenchOp) (k : String) :
    ∀ b, dictGet (applyBenchOps b ops).fitness_scores k =
      lastFitFrom k ops (dictGet b.fitness_scores k) := by
  induction ops with
  | nil => intro b; rfl
  | cons op ops ih =>
    intro b
    rcases op with ⟨n, v⟩ | ⟨n, v⟩ | ⟨n, v⟩
    · exact ih (b.add_timing n v)
    · rw [applyBenchOps, List.foldl_cons,
        show applyBenchOp b (.fit n v) = b.add_fitness n v from rfl,
        lastFitFrom]
      rw [show (ops.foldl applyBenchOp (b.add_fitness n v)) =
        applyBenchOps (b.add_fitness n v) ops from rfl]
      rw [ih (b.add_fitness n v)]
      rw [show (b.add_fitness n v).fitness_scores = dictSet b.fitness_scores n v from rfl]
      rw [dictGet_dictSet]
    · exact ih (b.add_rmse n v)

lemma applyBenchOps_rmse (ops : List BenchOp) (k : String) :
    ∀ b, dictGet (applyBenchOps b ops).inlier_rmse k =
      lastRmseFrom k ops (dictGet b.inlier_rmse k) := by
  induction ops with
  | nil => intro b; rfl
  | cons op ops ih =>
    intro b
    rcases op with ⟨n, v⟩ | ⟨n, v⟩ | ⟨n, v⟩
    · exact ih (b.add_timing n v)
    · exact ih (b.add_fitness n v)
    · rw [applyBenchOps, List.foldl_cons,
        show applyBenchOp b (.rmse n v) = b.add_rmse n v from rfl,
        lastRmseFrom]
      rw [show (ops.foldl applyBenchOp (b.add_rmse n v)) =
        applyBenchOps (b.add_rmse n v) ops from rfl]
      rw [ih (b.add_rmse n v)]
      rw [show (b.add_rmse n v).inlier_rmse = dictSet b.inlier_rmse n v from rfl]
      rw [dictGet_dictSet]

/-- Claim C9. `BenchmarkResults` recording is last-wins per label: after
any sequence of `add_timing`/`add_fitness`/`add_rmse` calls on a fresh
sink, each dictionary maps a label to exactly the value of the most
recent call of its kind with that label. -/
theorem benchmark_recording_last_wins (ops : List BenchOp) (k : String) :
    dictGet (applyBenchOps emptyBench ops).timings k = lastTimingFrom k ops none ∧
    dictGet (applyBenchOps emptyBench ops).fitness_scores k = lastFitFrom k ops none ∧
    dictGet (applyBenchOps emptyBench ops).inlier_rmse k = lastRmseFrom k ops none :=
  ⟨applyBenchOps_timings ops k emptyBench,
   applyBenchOps_fitness ops k emptyBench,
   applyBenchOps_rmse ops k emptyBench⟩

/-! ### The `Ply` constructor: input selection and errors -/

/-- Errors the `Ply` constructor can raise (`src/ply/ply.py`, lines
43–61 and 119–125): the missing-input `ValueError`, `FileNotFoundError`,
the non-`.ply` `TypeError`, and the empty-cloud `ValueError` raised by
`_load`. -/
inductive PlyInitError where
  | missingInput
  | fileNotFound
  | notPlyFile
  | emptyCloud
deriving DecidableEq, Repr

/-- What the file system knows about a supplied path: whether the file
is present, whether its suffix is `.ply`, and the cloud stored there. -/
structure PathData where
  filePresent : Bool
  suffixIsPly : Bool
  content : List Pt
deriving DecidableEq, Repr

/-- The input-selection logic of `Ply.__init__` (`src/ply/ply.py`, lines
43–61): a directly supplied cloud wins; otherwise the file at `path` is
validated and loaded, with `_load` rejecting an empty cloud; with
neither input the constructor raises the missing-input `ValueError`. -/
def plyInitSource (path : Option PathData) (pcd : Option (List Pt)) :
    Except PlyInitError (List Pt) :=
  match pcd with
  | some c => .ok c
  | none =>
    match path with
    | some pd =>
      if !pd.filePresent then .error .fileNotFound
      else if !pd.suffixIsPly then .error .notPlyFile
      else if pd.content = [] then .error .emptyCloud
      else .ok pd.content
    | none => .error .missingInput

/-- Claim C10. Constructing a `Ply` with neither a file path nor an
in-memory cloud raises the missing-input `ValueError`, and that error is
raised in no other situation — in particular not when exactly one of the
two inputs is provided. -/
theorem ply_init_missing_input_iff (path : Option PathData)
    (pcd : Option (List Pt)) :
    plyInitSource path pcd = .error .missingInput ↔
      path = none ∧ pcd = none := by
  rcases pcd with _ | c
  · rcases path with _ | pd
    · simp [plyInitSource]
    · unfold plyInitSource
      by_cases h1 : pd.filePresent
      · by_cases h2 : pd.suffixIsPly
        · by_cases h3 : pd.content = [] <;> simp [h1, h2, h3]
        · simp [h1, h2]
      · simp [h1]
  · simp [plyInitSource]

/-! ### Aliasing of the caller's cloud during `Ply` construction -/

/-- A point cloud together with a flag recording whether normals are
attached. Claim C4 concerns which object gets mutated, not the numeric
normal values, so the model tracks only the presence of normals. -/
structure Cloud where
  points : List Pt
  hasNormals : Bool
deriving DecidableEq, Repr

instance : Inhabited Cloud := ⟨⟨[], false⟩⟩

/-- A heap of cloud objects. References are indices; Python assignment
copies references, never objects. -/
structure Heap where
  clouds : List Cloud
deriving DecidableEq, Repr

/-- Modelled from the spec §4.3: `estimate_normals` attaches normals to
a cloud in place (the eigen-decomposition that produces their values is
irrelevant to the aliasing claim, so only the presence flag changes). -/
def estimateNormalsInPlace (c : Cloud) : Cloud :=
  { c with hasNormals := true }

/-- `Ply.__init__` with a directly supplied `pcd` (`src/ply/ply.py`,
lines 43–47 and 63–75): store the caller's reference (`self.pcd = pcd`),
build a new down-sampled cloud (`voxel_down_sample` allocates) and
estimate normals on it, then `_add_normals(self.pcd, ...)` (lines 75 and
159–165) estimates normals on the full cloud in place — through the
caller's reference. Returns the heap after construction together with
the references `(self.pcd, self.pcd_down)` held by the new object. -/
def plyInitFromPcd (h : Heap) (ref : Nat) (voxel_size : ℚ) :
    Heap × Nat × Nat :=
  let base := h.clouds.getD ref default
  let down : Cloud :=
    estimateNormalsInPlace ⟨downsampleCore base.points voxel_size, false⟩
  let downRef := h.clouds.length
  let h1 : Heap := ⟨h.clouds ++ [down]⟩
  let h2 : Heap := ⟨h1.clouds.set ref (estimateNormalsInPlace base)⟩
  (h2, ref, downRef)

/-- Counterexample to claim C4. Constructing a `Ply` from an externally
supplied cloud (one point, no normals) changes the caller's cloud even
though no `Transform` is applied during construction:
`_add_normals(self.pcd, ...)` mutates the aliased object in place
instead of working on an owned copy. -/
theorem ply_init_changes_callers_cloud :
    ((plyInitFromPcd ⟨[⟨[Pt.mk 1 2 3], false⟩]⟩ 0 1).1.clouds.getD 0 default) ≠
      ⟨[Pt.mk 1 2 3], false⟩ := by
  intro h
  have := congrArg Cloud.hasNormals h
  simp [plyInitFromPcd, estimateNormalsInPlace] at this

/-- Claim C4 amended: constructing a `Ply` from an externally supplied
cloud does mutate the caller's cloud in place — `_add_normals` attaches
normals through the stored alias — but it leaves the caller's point
positions unchanged, performs downsampling into a newly allocated cloud
rather than in place, and touches no other heap object. -/
theorem ply_init_frame_effect (h : Heap) (ref : Nat) (v : ℚ)
    (href : ref < h.clouds.length) :
    ((plyInitFromPcd h ref v).1.clouds.getD ref default).points =
      (h.clouds.getD ref default).points ∧
    ((plyInitFromPcd h ref v).1.clouds.getD ref default).hasNormals = true ∧
    (plyInitFromPcd h ref v).2.2 = h.clouds.length ∧
    (plyInitFromPcd h ref v).1.clouds.length = h.clouds.length + 1 ∧
    (∀ i, i < h.clouds.length → i ≠ ref →
      (plyInitFromPcd h ref v).1.clouds.getD i default =
        h.clouds.getD i default) := by
  unfold plyInitFromPcd
  dsimp only
  have hlen : (h.clouds ++ [estimateNormalsInPlace
      ⟨downsampleCore (h.clouds.getD ref default).points v, false⟩]).length =
      h.clouds.length + 1 := by simp
  have hreflt : ref < (h.clouds ++ [estimateNormalsInPlace
      ⟨downsampleCore (h.clouds.getD ref default).points v, false⟩]).length := by
    rw [hlen]; omega
  have hget : ((h.clouds ++ [estimateNormalsInPlace
        ⟨downsampleCore (h.clouds.getD ref default).points v, false⟩]).set ref
        (estimateNormalsInPlace (h.clouds.getD ref default))).getD ref default =
      estimateNormalsInPlace (h.clouds.getD ref default) := by
    rw [List.getD_eq_getElem _ _ (by simpa using hreflt)]
    exact List.getElem_set_self _
  refine ⟨?_, ?_, rfl, by simpa using hlen, ?_⟩
  · rw [hget]
    rfl
  · rw [hget]
    rfl
  · intro i hi hne
    rw [List.getD_eq_getElem _ _ (by simpa using (by omega : i <
      (h.clouds ++ [estimateNormalsInPlace
        ⟨downsampleCore (h.clouds.getD ref default).points v, false⟩]).length))]
    rw [List.getElem_set_ne (by omega)]
    rw [List.getElem_append_left (by omega)]
    rw [List.getD_eq_getElem _ _ hi]

/-- Witness for the amended C4 at a concrete two-cloud heap. -/
theorem ply_init_frame_effect_witness :
    ((plyInitFromPcd ⟨[⟨[Pt.mk 1 2 3], false⟩, ⟨[Pt.mk 4 4 4], false⟩]⟩ 0
        1).1.clouds.getD 0 default).points =
      (([⟨[Pt.mk 1 2 3], false⟩, ⟨[Pt.mk 4 4 4], false⟩] :
        List Cloud).getD 0 default).points ∧
    ((plyInitFromPcd ⟨[⟨[Pt.mk 1 2 3], false⟩, ⟨[Pt.mk 4 4 4], false⟩]⟩ 0
        1).1.clouds.getD 0 default).hasNormals = true ∧
    (plyInitFromPcd ⟨[⟨[Pt.mk 1 2 3], false⟩, ⟨[Pt.mk 4 4 4], false⟩]⟩ 0
        1).2.2 = 2 ∧
    (plyInitFromPcd ⟨[⟨[Pt.mk 1 2 3], false⟩, ⟨[Pt.mk 4 4 4], false⟩]⟩ 0
        1).1.clouds.length = 2 + 1 ∧
    (∀ i, i < 2 → i ≠ 0 →
      (plyInitFromPcd ⟨[⟨[Pt.mk 1 2 3], false⟩, ⟨[Pt.mk 4 4 4], false⟩]⟩ 0
          1).1.clouds.getD i default =
        ([⟨[Pt.mk 1 2 3], false⟩, ⟨[Pt.mk 4 4 4], false⟩] :
          List Cloud).getD i default) :=
  ply_init_frame_effect ⟨[⟨[Pt.mk 1 2 3], false⟩, ⟨[Pt.mk 4 4 4], false⟩]⟩ 0 1
    (by simp)

end Matching3D
